import Mathlib

set_option maxRecDepth 40000

/-!
Shallow embedding of `src/server/scrape_countryroad.py` (a paginated retailer
scraper) and proofs about its specification.

Modelling conventions:
* Python strings are Lean `String`s; the Python string operations used by the
  scraper (`lower`, `replace`, `strip`, `startswith`, substring `in`) are
  re-implemented here over `List Char`, matching Python's code-point
  semantics (Python's `str.lower` also lowercases non-ASCII letters, which
  the ASCII `Char.toLower` does not; every keyword in the scraper's table is
  ASCII, so the difference cannot affect keyword matching).
* Python `float` values are modelled as exact rationals `ℚ`.  The claims
  under study depend only on whether `float(text)` succeeds and on the sign
  of the result, never on rounding; the special spellings `inf`/`nan` and
  underscore separators accepted by Python's `float` are outside the model.
* The HTML parser collaborator (BeautifulSoup) is abstracted away: a product
  card is modelled by the four query results the scraper reads from it
  (first `h2`/`a` text node, first `a[href]`, first `img[src]`, first
  `span.value` text), each an `Option String` (`None` when the element is
  absent).
* `requests.get` is abstracted to an oracle `Nat → Option (List Card)`:
  `none` models a `requests.RequestException` (timeout, connection error, or
  a non-2xx status raised by `raise_for_status`).
* The Firestore document store is an external collaborator; its
  `set(..., merge=True)` semantics are modelled from the spec (§6):
  caller-supplied document id, fields present in the write overwrite the
  stored document, absent fields are preserved, and `scrapedAt`
  (`SERVER_TIMESTAMP` in the source) is refreshed to the server time of the
  write.
-/

namespace CountryRoadScraper

/-! ## Python string primitives, re-implemented over `List Char` -/

/-- Python `str.lower()` (ASCII letters; see the module comment). -/
def pyLower (s : String) : String := (s.toList.map Char.toLower).asString

/-- Substring search on code-point lists: Python's `needle in hay`. -/
def subAux (needle : List Char) : List Char → Bool
  | [] => needle.isEmpty
  | c :: rest => needle.isPrefixOf (c :: rest) || subAux needle rest

/-- Python `needle in hay` for strings. -/
def strIn (needle hay : String) : Bool := subAux needle.toList hay.toList

/-- Fueled worker for `pyReplace`; the fuel is the length of the subject, so
it never runs out when called through `pyReplace` with a non-empty pattern. -/
def replaceAux (pat rep : List Char) : Nat → List Char → List Char
  | _, [] => []
  | 0, s => s
  | fuel + 1, c :: rest =>
    if pat ≠ [] && pat.isPrefixOf (c :: rest) then
      rep ++ replaceAux pat rep fuel ((c :: rest).drop pat.length)
    else
      c :: replaceAux pat rep fuel rest

/-- Python `s.replace(pat, rep)`: every non-overlapping occurrence,
left to right.  (The scraper only calls it with non-empty patterns.) -/
def pyReplace (s pat rep : String) : String :=
  (replaceAux pat.toList rep.toList s.toList.length s.toList).asString

/-- Python `s.strip()`: drop leading and trailing whitespace. -/
def pyStrip (s : String) : String :=
  (((s.toList.dropWhile Char.isWhitespace).reverse.dropWhile
      Char.isWhitespace).reverse).asString

/-- Python `s.startswith(pre)`. -/
def pyStartsWith (s pre : String) : Bool := pre.toList.isPrefixOf s.toList

/-- Python truthiness of a string: non-empty. -/
def truthy (s : String) : Bool := !s.toList.isEmpty

/-- Python truthiness of an optional string: not `None` and non-empty. -/
def otruthy : Option String → Bool
  | none => false
  | some s => truthy s

/-! ## `CATEGORY_KEYWORDS` and `map_category` (source lines 22–28, 47–53) -/

/-- The scraper's `CATEGORY_KEYWORDS` dict, in declaration order (Python
dicts preserve insertion order). -/
def CATEGORY_KEYWORDS : List (String × List String) :=
  [("tops", ["shirt", "t-shirt", "tee", "polo", "knit", "sweat", "jumper",
             "crew", "henley", "singlet", "tank", "top"]),
   ("bottoms", ["pant", "pants", "jean", "short", "trouser", "chino",
                "track", "jogger", "suit"]),
   ("shoes", ["shoe", "sneaker", "boot", "loafer", "slide", "thong"]),
   ("outerwear", ["jacket", "coat", "blazer", "overshirt", "duffle"]),
   ("accessories", ["belt", "bag", "duffle", "wallet", "tie", "sock",
                    "scarf", "hat"])]

/-- The nested `for category, keywords in ...: for kw in keywords: if kw in
name_lower: return category` loop, over an arbitrary table. -/
def findCat (nl : String) : List (String × List String) → Option String
  | [] => none
  | (cat, kws) :: rest =>
    if kws.any (fun kw => strIn kw nl) then some cat else findCat nl rest

/-- `map_category` (source lines 47–53). -/
def map_category (name : String) : String :=
  (findCat (pyLower name) CATEGORY_KEYWORDS).getD "tops"

/-! ## Price parsing: `float(price_text.replace('NZD','').replace('$','')
.replace(',','').strip())` (source line 87) -/

/-- The cleaning chain applied to the raw price text before `float`. -/
def cleanPrice (s : String) : String :=
  pyStrip (pyReplace (pyReplace (pyReplace s "NZD" "") "$" "") "," "")

/-- Decimal digits to a natural number. -/
def digitsToNat (ds : List Char) : Nat :=
  ds.foldl (fun n c => 10 * n + (c.toNat - 48)) 0

/-- Exponent tail of a `float` literal, after the `e`/`E`:
(digits present?, signed exponent value, unconsumed rest). -/
def parseExpTail (rest : List Char) : Bool × Int × List Char :=
  let (esgn, r1) : Int × List Char :=
    match rest with
    | '-' :: r => (-1, r)
    | '+' :: r => (1, r)
    | r => (1, r)
  let ds := r1.takeWhile Char.isDigit
  (!ds.isEmpty, esgn * (digitsToNat ds : Int), r1.dropWhile Char.isDigit)

/-- Python `float(s)` on the decimal-literal grammar
`[+-] digits* [. digits*] [(e|E) [+-] digits]` (at least one digit in the
mantissa), as an exact rational; `none` models `ValueError`.  The value is
assembled with integer arithmetic and one `mkRat` so that it evaluates by
kernel reduction. -/
def pyFloat? (s : String) : Option ℚ :=
  let (sgn, cs) : Int × List Char :=
    match s.toList with
    | '-' :: rest => (-1, rest)
    | '+' :: rest => (1, rest)
    | cs => (1, cs)
  let ip := cs.takeWhile Char.isDigit
  let cs1 := cs.dropWhile Char.isDigit
  let (fp, cs2) : List Char × List Char :=
    match cs1 with
    | '.' :: rest => (rest.takeWhile Char.isDigit, rest.dropWhile Char.isDigit)
    | _ => ([], cs1)
  let (expOk, expVal, cs3) : Bool × Int × List Char :=
    match cs2 with
    | 'e' :: rest => parseExpTail rest
    | 'E' :: rest => parseExpTail rest
    | _ => (true, 0, cs2)
  if (!ip.isEmpty || !fp.isEmpty) && expOk && cs3.isEmpty then
    let mant : Int := sgn * ((digitsToNat ip * 10 ^ fp.length + digitsToNat fp : Nat) : Int)
    let e : Int := expVal - (fp.length : Int)
    some (if 0 ≤ e then mkRat (mant * (10 : Int) ^ e.toNat) 1
          else mkRat mant ((10 : Nat) ^ (-e).toNat))
  else
    none

/-! ## Data model: product cards and persisted records -/

/-- The retailer identity block `{'id': 'countryroad', 'name': 'Country
Road'}` (source line 99). -/
structure Retailer where
  id : String
  name : String
deriving DecidableEq

/-- The product dict built at source lines 91–101.  `scrapedAt` is the
`SERVER_TIMESTAMP` sentinel and lives in the store model (`StoredDoc`), not
in the record: its value is assigned by the server at write time. -/
structure Product where
  name : String
  brand : String
  price : ℚ
  imageUrl : String
  productUrl : String
  category : String
  color : String
  retailer : Retailer
deriving DecidableEq

/-- A product card, abstracted to the four query results `scrape_page` reads
from one `section[data-type=ProductCard]` element (source lines 75–86):
the stripped text of the first `h2`-or-`a` tag with a string, the first
anchor's `href`, the first image's `src`, and the stripped text of the first
`span.value`; `none` when the element/attribute is absent. -/
structure Card where
  nameText : Option String
  href : Option String
  imgSrc : Option String
  priceText : Option String
deriving DecidableEq

/-- `'https://www.countryroad.co.nz'`, the prefix used at source lines 80
and 84. -/
def BASE_URL : String := "https://www.countryroad.co.nz"

/-- Lines 79–80 / 83–84: `if u and not u.startswith('http'): u = BASE + u`
(also used verbatim for the image source). -/
def absolutize : Option String → Option String
  | none => none
  | some v =>
    if truthy v && !pyStartsWith v "http" then some (BASE_URL ++ v) else some v

/-- Outcome of the per-card body (source lines 74–105): a persisted product,
a silent fall-through of the `if name and product_url and image_url and
price is not None` guard, or an exception caught and logged by the
`except` clause. -/
inductive CardResult where
  | ok (p : Product)
  | skipped
  | errorLogged
deriving DecidableEq

def isOk : CardResult → Bool
  | CardResult.ok _ => true
  | _ => false

def isErr : CardResult → Bool
  | CardResult.errorLogged => true
  | _ => false

/-- Line 87: `price = float(price_text.replace(...).strip()) if price_text
else None`.  `Except.error` models the `ValueError` that `float` raises on
a truthy but unparseable text — the only exception source in the card
body. -/
def priceStepOf : Option String → Except Unit (Option ℚ)
  | some pt =>
    if truthy pt then
      match pyFloat? (cleanPrice pt) with
      | some q => Except.ok (some q)
      | none => Except.error ()
    else Except.ok none
  | none => Except.ok none

/-- The body of the per-card loop (source lines 74–105).  The only modelled
exception source is `float(...)` raising `ValueError` on a truthy but
unparseable price text; every other step of the body is total. -/
def extractCard (c : Card) : CardResult :=
  let name := c.nameText
  let product_url := absolutize c.href
  let image_url := absolutize c.imgSrc
  let price_text := c.priceText
  match priceStepOf price_text with
  | Except.error _ => CardResult.errorLogged
  | Except.ok price =>
    let category :=
      if otruthy name then map_category (name.getD "") else "tops"
    if otruthy name && otruthy product_url && otruthy image_url
        && price.isSome then
      CardResult.ok ⟨name.getD "", "Country Road", price.getD 0,
                     image_url.getD "", product_url.getD "", category, "",
                     ⟨"countryroad", "Country Road"⟩⟩
    else CardResult.skipped

/-- The persisted record of one card, if any. -/
def persistedOf (c : Card) : Option Product :=
  match extractCard c with
  | CardResult.ok p => some p
  | _ => none

/-- The per-page card loop (source lines 73–105): persisted records in page
order, the `products_found` counter, and the number of `"Error parsing
product"` log lines. -/
def scrapeCards : List Card → List Product × Nat × Nat
  | [] => ([], 0, 0)
  | c :: rest =>
    let r := scrapeCards rest
    match extractCard c with
    | CardResult.ok p => (p :: r.1, r.2.1 + 1, r.2.2)
    | CardResult.skipped => r
    | CardResult.errorLogged => (r.1, r.2.1, r.2.2 + 1)

/-- `scrape_page` (source lines 59–107) given the transport outcome for the
page: `none` is a `requests.RequestException` (the function returns `0`
without parsing); `some cards` is a fetched page whose markup contains
`cards`.  Result: (persisted records, `products_found`, logged card
errors). -/
def scrape_page : Option (List Card) → List Product × Nat × Nat
  | none => ([], 0, 0)
  | some cards => scrapeCards cards

/-- The `products_found` value `scrape_page` returns to `main`. -/
def pageYield (fr : Option (List Card)) : Nat := (scrape_page fr).2.1

/-! ## Crawl controller (`main`, source lines 109–120) -/

/-- The inner `for page_num in range(1, 8)` loop of `main` over the pages
still to visit: fetches each page in order, stops after the first page whose
`num_scraped` is `0` (that page is still fetched, nothing after it).
Returns the pages fetched and the records persisted for the section. -/
def runSectionAux (fetch : Nat → Option (List Card)) :
    List Nat → List Nat × List Product
  | [] => ([], [])
  | p :: ps =>
    let res := scrape_page (fetch p)
    if res.2.1 = 0 then ([p], [])
    else
      let rec' := runSectionAux fetch ps
      (p :: rec'.1, res.1 ++ rec'.2)

/-- One section of `main`: pages `1..7` (`range(1, 8)`). -/
def runSection (fetch : Nat → Option (List Card)) : List Nat × List Product :=
  runSectionAux fetch (List.range' 1 7)

/-- The pages `main` fetches for a section. -/
def fetchedPages (fetch : Nat → Option (List Card)) : List Nat :=
  (runSection fetch).1

/-- The records `main` persists for a section. -/
def sectionPersisted (fetch : Nat → Option (List Card)) : List Product :=
  (runSection fetch).2

/-- What the section adds to `total_products`: the sum of the non-zero
`num_scraped` values, i.e. the number of records persisted. -/
def sectionTotal (fetch : Nat → Option (List Card)) : Nat :=
  (sectionPersisted fetch).length

/-- The final `total_products` of `main`, over the configured sections in
declaration order (each section given by its transport oracle). -/
def main_total (sections : List (Nat → Option (List Card))) : Nat :=
  sections.foldl (fun acc fetch => acc + sectionTotal fetch) 0

/-! ## MD5 (RFC 1321), for `hashlib.md5(product['productUrl'].encode())
.hexdigest()` (source line 56).  32-bit words are `Nat`s reduced modulo
`2 ^ 32`. -/

/-- UTF-8 encoding of one code point (Python `str.encode()`). -/
def charUtf8 (c : Char) : List Nat :=
  let n := c.toNat
  if n < 128 then [n]
  else if n < 2048 then [192 + n / 64, 128 + n % 64]
  else if n < 65536 then
    [224 + n / 4096, 128 + n / 64 % 64, 128 + n % 64]
  else
    [240 + n / 262144, 128 + n / 4096 % 64, 128 + n / 64 % 64, 128 + n % 64]

/-- UTF-8 bytes of a string (Python `str.encode()`). -/
def utf8Bytes (s : String) : List Nat := (s.toList.map charUtf8).flatten

/-- The per-round left-rotation amounts. -/
def md5_s : List Nat :=
  [7, 12, 17, 22, 7, 12, 17, 22, 7, 12, 17, 22, 7, 12, 17, 22,
   5, 9, 14, 20, 5, 9, 14, 20, 5, 9, 14, 20, 5, 9, 14, 20,
   4, 11, 16, 23, 4, 11, 16, 23, 4, 11, 16, 23, 4, 11, 16, 23,
   6, 10, 15, 21, 6, 10, 15, 21, 6, 10, 15, 21, 6, 10, 15, 21]

/-- The sine-derived round constants `K[i] = floor(2^32 * abs(sin(i+1)))`. -/
def md5_K : List Nat :=
  [3614090360, 3905402710, 606105819, 3250441966,
   4118548399, 1200080426, 2821735955, 4249261313,
   1770035416, 2336552879, 4294925233, 2304563134,
   1804603682, 4254626195, 2792965006, 1236535329,
   4129170786, 3225465664, 643717713, 3921069994,
   3593408605, 38016083, 3634488961, 3889429448,
   568446438, 3275163606, 4107603335, 1163531501,
   2850285829, 4243563512, 1735328473, 2368359562,
   4294588738, 2272392833, 1839030562, 4259657740,
   2763975236, 1272893353, 4139469664, 3200236656,
   681279174, 3936430074, 3572445317, 76029189,
   3654602809, 3873151461, 530742520, 3299628645,
   4096336452, 1126891415, 2878612391, 4237533241,
   1700485571, 2399980690, 4293915773, 2240044497,
   1873313359, 4264355552, 2734768916, 1309151649,
   4149444226, 3174756917, 718787259, 3951481745]

/-- Left rotation of a 32-bit word. -/
def leftrot (x n : Nat) : Nat :=
  ((x <<< n) ||| (x >>> (32 - n))) % 4294967296

/-- Bitwise complement of a 32-bit word. -/
def not32 (x : Nat) : Nat := x ^^^ 4294967295

/-- Round function and message-word index of round `i`. -/
def md5F (i b c d : Nat) : Nat × Nat :=
  if i < 16 then ((b &&& c) ||| (not32 b &&& d), i)
  else if i < 32 then ((d &&& b) ||| (not32 d &&& c), (5 * i + 1) % 16)
  else if i < 48 then (b ^^^ c ^^^ d, (3 * i + 5) % 16)
  else (c ^^^ (b ||| not32 d), (7 * i) % 16)

/-- One MD5 round on the state `(a, b, c, d)` with message words `m`. -/
def md5Round (m : List Nat) (st : Nat × Nat × Nat × Nat) (i : Nat) :
    Nat × Nat × Nat × Nat :=
  let (a, b, c, d) := st
  let (f, g) := md5F i b c d
  let f2 := (f + a + md5_K.getD i 0 + m.getD g 0) % 4294967296
  (d, (b + leftrot f2 (md5_s.getD i 0)) % 4294967296, b, c)

/-- One 512-bit block: 64 rounds, then the feed-forward addition. -/
def md5Block (st : Nat × Nat × Nat × Nat) (m : List Nat) :
    Nat × Nat × Nat × Nat :=
  let (a, b, c, d) := (List.range 64).foldl (md5Round m) st
  ((st.1 + a) % 4294967296, (st.2.1 + b) % 4294967296,
   (st.2.2.1 + c) % 4294967296, (st.2.2.2 + d) % 4294967296)

/-- Little-endian 32-bit words from a byte list (length a multiple of 4). -/
def leWords : List Nat → List Nat
  | b0 :: b1 :: b2 :: b3 :: rest =>
    (b0 + 256 * b1 + 65536 * b2 + 16777216 * b3) :: leWords rest
  | _ => []

/-- MD5 padding: a `0x80` byte, zeros to 56 mod 64, then the 64-bit
little-endian bit length. -/
def md5Pad (msg : List Nat) : List Nat :=
  let len := msg.length
  let zeros := (56 + 64 - (len + 1) % 64) % 64
  let bitLen := (len * 8) % 18446744073709551616
  msg ++ [128] ++ List.replicate zeros 0 ++
    (List.range 8).map (fun i => bitLen / 256 ^ i % 256)

/-- Fold the compression function over `n` 16-word chunks. -/
def md5Chunks : Nat → (Nat × Nat × Nat × Nat) → List Nat →
    Nat × Nat × Nat × Nat
  | 0, st, _ => st
  | n + 1, st, ws => md5Chunks n (md5Block st (ws.take 16)) (ws.drop 16)

/-- Little-endian bytes of a 32-bit word. -/
def leBytes (x : Nat) : List Nat :=
  [x % 256, x / 256 % 256, x / 65536 % 256, x / 16777216 % 256]

/-- The 16-byte MD5 digest of a byte string. -/
def md5Digest (msg : List Nat) : List Nat :=
  let ws := leWords (md5Pad msg)
  let (a, b, c, d) :=
    md5Chunks (ws.length / 16) (1732584193, 4023233417, 2562383102, 271733878) ws
  leBytes a ++ leBytes b ++ leBytes c ++ leBytes d

/-- Lower-case hex digit. -/
def hexChar (n : Nat) : Char :=
  if n < 10 then Char.ofNat (48 + n) else Char.ofNat (87 + n)

/-- `hexdigest()`: lower-case hex of the digest bytes. -/
def hexdigest (bytes : List Nat) : String :=
  ((bytes.map (fun b => [hexChar (b / 16), hexChar (b % 16)])).flatten).asString

/-- `hashlib.md5(s.encode()).hexdigest()`. -/
def md5Hex (s : String) : String := hexdigest (md5Digest (utf8Bytes s))

/-! ## Identity and persistence (`save_product_to_firestore`, source lines
55–57) -/

/-- `doc_id = hashlib.md5(product['productUrl'].encode()).hexdigest()`. -/
def doc_id (productUrl : String) : String := md5Hex productUrl

/-- The document key under which a record is stored. -/
def savedKey (p : Product) : String := doc_id p.productUrl

/-- A stored document's fields; `none` marks a field absent from the
document.  (The scraper itself always writes all eight fields.) -/
structure DocFields where
  name : Option String
  brand : Option String
  price : Option ℚ
  imageUrl : Option String
  productUrl : Option String
  category : Option String
  color : Option String
  retailer : Option Retailer
deriving DecidableEq

/-- Merge of one field: a field present in the write wins. -/
def pick {α : Type} : Option α → Option α → Option α
  | some v, _ => some v
  | none, o => o

/-- Modelled from the spec (§6, persistence collaborator): merge of a write
into a stored document — fields present in the write overwrite, fields
absent are preserved. -/
def mergeFields (old new : DocFields) : DocFields :=
  ⟨pick new.name old.name, pick new.brand old.brand, pick new.price old.price,
   pick new.imageUrl old.imageUrl, pick new.productUrl old.productUrl,
   pick new.category old.category, pick new.color old.color,
   pick new.retailer old.retailer⟩

/-- A stored document: fields plus the server-set `scrapedAt` timestamp. -/
structure StoredDoc where
  fields : DocFields
  scrapedAt : Nat
deriving DecidableEq

/-- The `retailer_products` collection: document id to stored document. -/
def Store : Type := String → Option StoredDoc

/-- The document with no fields. -/
def emptyFields : DocFields := ⟨none, none, none, none, none, none, none, none⟩

/-- Modelled from the spec (§6, persistence collaborator):
`collection.document(docId).set(fields, merge=True)` at server time `now` —
fields present in the write overwrite the stored document, absent fields are
left untouched, `scrapedAt` is refreshed to `now`, and no other document is
affected. -/
def mergeSet (st : Store) (docId : String) (new : DocFields) (now : Nat) :
    Store :=
  fun k =>
    if k = docId then
      some ⟨mergeFields
              (match st docId with
               | some d => d.fields
               | none => emptyFields) new, now⟩
    else st k

/-- All eight fields of the dict the scraper writes (source lines 91–101);
`scrapedAt` is the `SERVER_TIMESTAMP` sentinel, handled by `mergeSet`. -/
def fullFields (p : Product) : DocFields :=
  ⟨some p.name, some p.brand, some p.price, some p.imageUrl,
   some p.productUrl, some p.category, some p.color, some p.retailer⟩

/-- `save_product_to_firestore` (source lines 55–57) at server time `now`. -/
def save_product_to_firestore (st : Store) (p : Product) (now : Nat) : Store :=
  mergeSet st (savedKey p) (fullFields p) now

/-! ## Vocabulary for the classifier claims -/

/-- The category labels in table order. -/
def catKeys : List String := CATEGORY_KEYWORDS.map Prod.fst

/-- Declaration index of a category label in a table. -/
def keyIdx : List (String × List String) → String → Nat
  | [], _ => 0
  | (k, _) :: rest, c => if k = c then 0 else keyIdx rest c + 1

/-- Declaration index of a category in `CATEGORY_KEYWORDS` (earlier-declared
means smaller index). -/
def catIdx (c : String) : Nat := keyIdx CATEGORY_KEYWORDS c

/-- Does some keyword of category `c` in table `tbl` occur in the
(lower-cased) name `nl`? -/
def tblMatchesB : List (String × List String) → String → String → Bool
  | [], _, _ => false
  | (k, kws) :: rest, nl, c =>
    (k == c && kws.any (fun kw => strIn kw nl)) || tblMatchesB rest nl c

/-- The name contains a keyword from category `c`'s list (as `map_category`
tests it: substring of the lower-cased name). -/
def Matched (name c : String) : Prop :=
  tblMatchesB CATEGORY_KEYWORDS (pyLower name) c = true

instance (name c : String) : Decidable (Matched name c) := by
  unfold Matched; exact inferInstance

/-! ## Vocabulary for the extraction and URL claims -/

/-- The conditions under which the guard at source line 90 admits a card:
the name, the (rewritten) product URL and the (rewritten) image URL are
truthy, and the price text is truthy and parses.  (Note: parse success of
any number, with no sign restriction — this is what the code tests.) -/
def requiredOk (c : Card) : Bool :=
  otruthy c.nameText && otruthy (absolutize c.href)
    && otruthy (absolutize c.imgSrc)
    && (match c.priceText with
        | some pt => truthy pt && (pyFloat? (cleanPrice pt)).isSome
        | none => false)

/-- Tail of a URI scheme after its first character: letters, digits, `+`,
`-` or `.` up to a `:` (RFC 3986 `scheme = ALPHA *( ALPHA / DIGIT / "+" /
"-" / "." ) ":"`). -/
def schemeTail : List Char → Bool
  | [] => false
  | c :: rest =>
    if c = ':' then true
    else (c.isAlpha || c.isDigit || c = '+' || c = '-' || c = '.')
           && schemeTail rest

/-- Does the URL start with a URI scheme (RFC 3986)? -/
def hasScheme (u : String) : Bool :=
  match u.toList with
  | [] => false
  | c :: rest => c.isAlpha && schemeTail rest

/-! ## Concrete fixtures used by individual claims -/

/-- A card whose price text parses as a negative number. -/
def negPriceCard : Card :=
  ⟨some "Test Shirt", some "https://www.countryroad.co.nz/p/test",
   some "https://www.countryroad.co.nz/i/test.jpg", some "-5"⟩

/-- The record the scraper persists for `negPriceCard`. -/
def negPriceProduct : Product :=
  ⟨"Test Shirt", "Country Road", -5,
   "https://www.countryroad.co.nz/i/test.jpg",
   "https://www.countryroad.co.nz/p/test", "tops", "",
   ⟨"countryroad", "Country Road"⟩⟩

/-- A card with no image element. -/
def missImgCard : Card := ⟨some "Linen Shirt", some "/p/l", none, some "$10.00"⟩

/-- Four fully-formed cards and one card with no price element. -/
def c5CardA : Card := ⟨some "Linen Shirt", some "/p/a", some "/i/a.jpg", some "$120.00"⟩
def c5CardB : Card := ⟨some "Wool Jumper", some "/p/b", some "/i/b.jpg", some "$180.00"⟩
def c5NoPriceCard : Card := ⟨some "Silk Tie", some "/p/c", some "/i/c.jpg", none⟩
def c5CardC : Card := ⟨some "Suede Loafer", some "/p/d", some "/i/d.jpg", some "$220.00"⟩
def c5CardD : Card := ⟨some "Denim Jean", some "/p/e", some "/i/e.jpg", some "$140.00"⟩

/-- A page of five product cards of which exactly one (the third) lacks a
price element. -/
def fivePage : List Card := [c5CardA, c5CardB, c5NoPriceCard, c5CardC, c5CardD]

/-- A transport oracle whose every page holds one fully-formed card. -/
def constPageFetch : Nat → Option (List Card) :=
  fun _ => some [⟨some "Wool Crew", some "/p/crew", some "/i/crew.jpg",
                  some "$120.00"⟩]

/-- One fully-formed card for the end-to-end section fixture. -/
def c6Card : Card :=
  ⟨some "Classic Chino", some "/p/classic-chino", some "/i/chino.jpg",
   some "$99.00"⟩

/-- A section whose pages 1–3 hold 10 fully-formed cards each and whose
page 4 holds zero product cards. -/
def fetchC6 : Nat → Option (List Card) :=
  fun n => if n ≤ 3 then some (List.replicate 10 c6Card) else some []

/-- Two records that differ in every field except `productUrl`. -/
def c4ProdA : Product :=
  ⟨"Linen Shirt", "Country Road", 120, "https://www.countryroad.co.nz/i/a.jpg",
   "https://www.countryroad.co.nz/p/shared", "tops", "",
   ⟨"countryroad", "Country Road"⟩⟩
def c4ProdB : Product :=
  ⟨"Linen Shirt v2", "Country Road", 95, "https://www.countryroad.co.nz/i/b.jpg",
   "https://www.countryroad.co.nz/p/shared", "tops", "",
   ⟨"countryroad", "Country Road"⟩⟩

/-- A record and an empty store for the idempotence witness. -/
def c7Prod : Product :=
  ⟨"Wool Jumper", "Country Road", 180, "https://www.countryroad.co.nz/i/j.jpg",
   "https://www.countryroad.co.nz/p/jumper", "tops", "",
   ⟨"countryroad", "Country Road"⟩⟩
def c7EmptyStore : Store := fun _ => none

/-- Stored fields with `color` present but empty, a second write with
`color` populated and `brand` absent, and a store holding the former. -/
def c8Old : DocFields :=
  ⟨some "Wool Scarf", some "Country Road", some 49,
   some "https://www.countryroad.co.nz/i/s.jpg",
   some "https://www.countryroad.co.nz/p/scarf", some "accessories",
   some "", some ⟨"countryroad", "Country Road"⟩⟩
def c8New : DocFields :=
  ⟨some "Wool Scarf", none, some 45, none, none, none, some "red", none⟩
def c8Store : Store := fun k => if k = "doc1" then some ⟨c8Old, 3⟩ else none

/-- A fully-formed card with relative URLs, and its persisted record. -/
def c9Card : Card :=
  ⟨some "Wool Scarf", some "/p/scarf", some "/i/scarf.jpg", some "$49.00"⟩
def c9Prod : Product :=
  ⟨"Wool Scarf", "Country Road", 49,
   "https://www.countryroad.co.nz/i/scarf.jpg",
   "https://www.countryroad.co.nz/p/scarf", "accessories", "",
   ⟨"countryroad", "Country Road"⟩⟩

/-- A fully-formed card and its persisted record, for the invariant
witness. -/
def c10Card : Card :=
  ⟨some "Suede Boot", some "/p/boot", some "/i/boot.jpg", some "NZD 259.00"⟩
def c10Prod : Product :=
  ⟨"Suede Boot", "Country Road", 259,
   "https://www.countryroad.co.nz/i/boot.jpg",
   "https://www.countryroad.co.nz/p/boot", "shoes", "",
   ⟨"countryroad", "Country Road"⟩⟩

/-! ## Sanity checks: the embedded primitives on concrete inputs, including
the RFC 1321 MD5 test vectors -/

lemma sanity_pyFloat_neg : pyFloat? "-5" = some (-5) := by decide

lemma sanity_pyFloat_dec : pyFloat? "129.00" = some 129 := by decide

lemma sanity_cleanPrice : cleanPrice "NZD 1,299.50" = "1299.50" := by decide

lemma sanity_pyFloat_clean :
    pyFloat? (cleanPrice "$59.95") = some (mkRat 1199 20) := by decide

lemma sanity_pyFloat_bad :
    pyFloat? "" = none ∧ pyFloat? "." = none ∧ pyFloat? "price" = none := by
  decide

lemma sanity_pyFloat_forms :
    pyFloat? "5." = some 5 ∧ pyFloat? ".5" = some (mkRat 1 2) ∧
    pyFloat? "1e2" = some 100 := by decide

lemma sanity_map_category :
    map_category "Classic Chino" = "bottoms" ∧ map_category "" = "tops" ∧
    map_category "Track Jacket" = "bottoms" := by decide

lemma sanity_strIn : strIn "top" "laptop sleeve" = true := by decide

lemma sanity_extract_ok :
    extractCard ⟨some "Linen Shirt", some "/p/linen", some "/i/l.jpg",
      some "$129.00"⟩ = CardResult.ok ⟨"Linen Shirt", "Country Road", 129,
        "https://www.countryroad.co.nz/i/l.jpg",
        "https://www.countryroad.co.nz/p/linen", "tops", "",
        ⟨"countryroad", "Country Road"⟩⟩ := by decide

lemma sanity_extract_skip :
    extractCard ⟨some "Linen Shirt", some "/p/linen", some "/i/l.jpg",
      none⟩ = CardResult.skipped := by decide

lemma sanity_extract_err :
    extractCard ⟨some "Linen Shirt", some "/p/linen", some "/i/l.jpg",
      some "call us"⟩ = CardResult.errorLogged := by decide

lemma sanity_failed_fetch : fetchedPages (fun _ => none) = [1] := by decide

lemma sanity_md5_rfc :
    md5Hex "" = "d41d8cd98f00b204e9800998ecf8427e" ∧
    md5Hex "abc" = "900150983cd24fb0d6963f7d28e17f72" := by decide

/-! ## Classifier lemmas -/

lemma tblMatchesB_mem {tbl : List (String × List String)} {nl c : String}
    (h : tblMatchesB tbl nl c = true) : c ∈ tbl.map Prod.fst := by
  induction tbl with
  | nil => simp [tblMatchesB] at h
  | cons hd tl ih =>
    obtain ⟨k0, kws0⟩ := hd
    simp only [tblMatchesB, Bool.or_eq_true, Bool.and_eq_true, beq_iff_eq] at h
    rcases h with ⟨h1, _⟩ | h2
    · simp [h1]
    · exact List.mem_cons_of_mem _ (ih h2)

lemma findCat_min :
    ∀ (tbl : List (String × List String)), (tbl.map Prod.fst).Nodup →
      ∀ (nl c : String), tblMatchesB tbl nl c = true →
        (∀ c', tblMatchesB tbl nl c' = true → keyIdx tbl c ≤ keyIdx tbl c') →
        findCat nl tbl = some c := by
  intro tbl
  induction tbl with
  | nil => intro _ nl c hc _; simp [tblMatchesB] at hc
  | cons hd tl ih =>
    obtain ⟨k0, kws0⟩ := hd
    intro hnd nl c hc hmin
    rw [List.map_cons, List.nodup_cons] at hnd
    by_cases h0 : kws0.any (fun kw => strIn kw nl) = true
    · have hk0 : tblMatchesB ((k0, kws0) :: tl) nl k0 = true := by
        simp [tblMatchesB, h0]
      have hidx := hmin k0 hk0
      have hkk : keyIdx ((k0, kws0) :: tl) k0 = 0 := by simp [keyIdx]
      rw [hkk] at hidx
      by_cases hck : k0 = c
      · simp [findCat, h0, hck]
      · exfalso
        have hne : keyIdx ((k0, kws0) :: tl) c = keyIdx tl c + 1 := by
          simp [keyIdx, hck]
        omega
    · have hstep : findCat nl ((k0, kws0) :: tl) = findCat nl tl := by
        simp [findCat, h0]
      have hc' : tblMatchesB tl nl c = true := by
        have hx := hc
        simp only [tblMatchesB, Bool.or_eq_true, Bool.and_eq_true,
          beq_iff_eq] at hx
        rcases hx with ⟨_, hh⟩ | h2
        · exact absurd hh h0
        · exact h2
      have hcne : k0 ≠ c := fun he =>
        hnd.1 (by rw [he]; exact tblMatchesB_mem hc')
      have hmin' : ∀ c', tblMatchesB tl nl c' = true →
          keyIdx tl c ≤ keyIdx tl c' := by
        intro c' hc2
        have hcne' : k0 ≠ c' := fun he =>
          hnd.1 (by rw [he]; exact tblMatchesB_mem hc2)
        have hfull : tblMatchesB ((k0, kws0) :: tl) nl c' = true := by
          simp [tblMatchesB, hc2]
        have hle := hmin c' hfull
        simp only [keyIdx, if_neg hcne, if_neg hcne'] at hle
        omega
      rw [hstep]
      exact ih hnd.2 nl c hc' hmin'

lemma findCat_none :
    ∀ (tbl : List (String × List String)) (nl : String),
      (∀ c, tblMatchesB tbl nl c = false) → findCat nl tbl = none := by
  intro tbl
  induction tbl with
  | nil => intro nl _; rfl
  | cons hd tl ih =>
    obtain ⟨k0, kws0⟩ := hd
    intro nl h
    have hk := h k0
    simp only [tblMatchesB, beq_self_eq_true, Bool.true_and,
      Bool.or_eq_false_iff] at hk
    rw [show findCat nl ((k0, kws0) :: tl) =
          if kws0.any (fun kw => strIn kw nl) then some k0 else findCat nl tl
        from rfl, hk.1]
    simp only [Bool.false_eq_true, if_false]
    refine ih nl ?_
    intro c
    have hc := h c
    simp only [tblMatchesB, Bool.or_eq_false_iff] at hc
    exact hc.2

lemma findCat_mem :
    ∀ (tbl : List (String × List String)) (nl c : String),
      findCat nl tbl = some c → c ∈ tbl.map Prod.fst := by
  intro tbl
  induction tbl with
  | nil => intro nl c h; simp [findCat] at h
  | cons hd tl ih =>
    obtain ⟨k0, kws0⟩ := hd
    intro nl c h
    by_cases h0 : kws0.any (fun kw => strIn kw nl) = true
    · simp [findCat, h0] at h
      simp [h]
    · simp [findCat, h0] at h
      exact List.mem_cons_of_mem _ (ih nl c h)

/-- `map_category` only ever returns one of the five table labels. -/
lemma map_category_mem (name : String) :
    map_category name ∈ ["tops", "bottoms", "shoes", "outerwear",
      "accessories"] := by
  unfold map_category
  cases h : findCat (pyLower name) CATEGORY_KEYWORDS with
  | none => simp
  | some c =>
    have hm := findCat_mem _ _ _ h
    simp only [CATEGORY_KEYWORDS, List.map_cons, List.map_nil] at hm
    simpa using hm

/-- C3: a product name containing a keyword from exactly one category's
keyword list is classified as that category; a name containing keywords
from two categories is classified as the earlier-declared of the two (in
the fixed table order, smaller `catIdx`); a name containing no keyword, and
the empty name, get the default category `"tops"`. -/
theorem map_category_claim :
    (∀ name c, Matched name c →
        (∀ c' ∈ catKeys, Matched name c' → c' = c) →
        map_category name = c) ∧
    (∀ name c c', Matched name c → Matched name c' → catIdx c < catIdx c' →
        (∀ c'' ∈ catKeys, Matched name c'' → c'' = c ∨ c'' = c') →
        map_category name = c) ∧
    (∀ name, (∀ c ∈ catKeys, ¬ Matched name c) → map_category name = "tops") ∧
    map_category "" = "tops" := by
  refine ⟨?one, ?two, ?zero, by decide⟩
  case one =>
    intro name c hc huniq
    unfold map_category
    rw [findCat_min CATEGORY_KEYWORDS (by decide) (pyLower name) c hc ?_]
    · rfl
    · intro c' hc'
      have he : c' = c := huniq c' (tblMatchesB_mem hc') hc'
      rw [he]
  case two =>
    intro name c c' hc hc' hlt hboth
    unfold map_category
    rw [findCat_min CATEGORY_KEYWORDS (by decide) (pyLower name) c hc ?_]
    · rfl
    · intro c2 hc2
      rcases hboth c2 (tblMatchesB_mem hc2) hc2 with he | he
      · rw [he]
      · rw [he]; exact Nat.le_of_lt hlt
  case zero =>
    intro name h
    unfold map_category
    rw [findCat_none CATEGORY_KEYWORDS (pyLower name) ?_]
    · rfl
    · intro c
      cases hB : tblMatchesB CATEGORY_KEYWORDS (pyLower name) c
      · rfl
      · exact absurd hB (h c (tblMatchesB_mem hB))

/-- Witness for `map_category_claim`: a name matching only `shoes` ("boot")
is classified `shoes`; a name matching `bottoms` ("track") and `outerwear`
("jacket") is classified as the earlier-declared `bottoms`; a keyword-free
name falls back to `tops`. -/
theorem map_category_claim_witness :
    map_category "Leather Boot" = "shoes" ∧
    map_category "Track Jacket" = "bottoms" ∧
    map_category "Gift Card" = "tops" :=
  ⟨map_category_claim.1 "Leather Boot" "shoes" (by decide) (by decide),
   map_category_claim.2.1 "Track Jacket" "bottoms" "outerwear" (by decide)
     (by decide) (by decide) (by decide),
   map_category_claim.2.2.1 "Gift Card" (by decide)⟩

/-! ## Per-card extraction lemmas -/

/-- A card clears the guard at source line 90 exactly when all required
fields are present: truthy name, truthy (rewritten) URLs, and a truthy
price text that parses. -/
lemma extractCard_ok_iff (c : Card) :
    isOk (extractCard c) = true ↔ requiredOk c = true := by
  obtain ⟨nm, hr, im, pt⟩ := c
  cases pt with
  | none => simp [extractCard, priceStepOf, requiredOk, isOk]
  | some pt =>
    cases htr : truthy pt with
    | false => simp [extractCard, priceStepOf, requiredOk, htr, isOk]
    | true =>
      cases hp : pyFloat? (cleanPrice pt) with
      | none => simp [extractCard, priceStepOf, requiredOk, htr, hp, isOk]
      | some q =>
        cases h1 : otruthy nm <;> cases h2 : otruthy (absolutize hr) <;>
          cases h3 : otruthy (absolutize im) <;>
          simp [extractCard, priceStepOf, requiredOk, isOk, htr, hp, h1, h2, h3]

/-- Inversion of the guard-and-persist step of the card body. -/
lemma extractCard_guard_inv (nm hr im : Option String) (q : Option ℚ)
    (p : Product)
    (hq : (if otruthy nm && otruthy (absolutize hr) && otruthy (absolutize im)
              && q.isSome then
             CardResult.ok ⟨nm.getD "", "Country Road", q.getD 0,
               (absolutize im).getD "", (absolutize hr).getD "",
               (if otruthy nm then map_category (nm.getD "") else "tops"), "",
               ⟨"countryroad", "Country Road"⟩⟩
           else CardResult.skipped) = CardResult.ok p) :
    otruthy nm = true ∧
    otruthy (absolutize hr) = true ∧
    otruthy (absolutize im) = true ∧
    p.name = nm.getD "" ∧
    p.brand = "Country Road" ∧
    p.productUrl = (absolutize hr).getD "" ∧
    p.imageUrl = (absolutize im).getD "" ∧
    p.category = map_category (nm.getD "") ∧
    p.color = "" ∧
    p.retailer = ⟨"countryroad", "Country Road"⟩ := by
  split at hq
  case isFalse => exact absurd hq (by simp)
  case isTrue hcond =>
    have hh := CardResult.ok.inj hq
    simp only [Bool.and_eq_true] at hcond
    obtain ⟨⟨⟨h1, h2⟩, h3⟩, -⟩ := hcond
    refine ⟨h1, h2, h3, ?_, ?_, ?_, ?_, ?_, ?_, ?_⟩ <;>
      (rw [← hh]; try simp [h1])

/-- Structure of a persisted record: which card fields it came from and
which constants it carries. -/
lemma extractCard_ok_inv (c : Card) (p : Product)
    (h : extractCard c = CardResult.ok p) :
    otruthy c.nameText = true ∧
    otruthy (absolutize c.href) = true ∧
    otruthy (absolutize c.imgSrc) = true ∧
    p.name = c.nameText.getD "" ∧
    p.brand = "Country Road" ∧
    p.productUrl = (absolutize c.href).getD "" ∧
    p.imageUrl = (absolutize c.imgSrc).getD "" ∧
    p.category = map_category (c.nameText.getD "") ∧
    p.color = "" ∧
    p.retailer = ⟨"countryroad", "Country Road"⟩ := by
  obtain ⟨nm, hr, im, pt⟩ := c
  simp only [extractCard] at h
  cases pt with
  | none => exact extractCard_guard_inv nm hr im none p h
  | some pt =>
    cases htr : truthy pt with
    | false =>
      have hps : priceStepOf (some pt) = Except.ok none := by
        simp [priceStepOf, htr]
      rw [hps] at h
      exact extractCard_guard_inv nm hr im none p h
    | true =>
      cases hp : pyFloat? (cleanPrice pt) with
      | none =>
        have hps : priceStepOf (some pt) = Except.error () := by
          simp [priceStepOf, htr, hp]
        rw [hps] at h
        exact absurd h (by simp)
      | some q =>
        have hps : priceStepOf (some pt) = Except.ok (some q) := by
          simp [priceStepOf, htr, hp]
        rw [hps] at h
        exact extractCard_guard_inv nm hr im (some q) p h

/-- A card's body raises exactly when the price step raises. -/
lemma extractCard_err_iff (c : Card) :
    extractCard c = CardResult.errorLogged ↔
      priceStepOf c.priceText = Except.error () := by
  obtain ⟨nm, hr, im, pt⟩ := c
  cases hps : priceStepOf pt with
  | error e =>
    cases e
    simp [extractCard, hps]
  | ok price =>
    simp only [extractCard, hps]
    cases hg : (otruthy nm && otruthy (absolutize hr)
        && otruthy (absolutize im) && price.isSome) <;> simp [hg]

/-- The price step raises exactly on a present, truthy, unparseable price
text. -/
lemma priceStepOf_err_iff (o : Option String) :
    priceStepOf o = Except.error () ↔
      ∃ pt, o = some pt ∧ truthy pt = true ∧
            pyFloat? (cleanPrice pt) = none := by
  cases o with
  | none => simp [priceStepOf]
  | some pt =>
    cases htr : truthy pt with
    | false => simp [priceStepOf, htr]
    | true =>
      cases hp : pyFloat? (cleanPrice pt) with
      | none => simp [priceStepOf, htr, hp]
      | some q => simp [priceStepOf, htr, hp]

/-- The page's persisted records are the per-card results, in order. -/
lemma scrapeCards_persisted (cards : List Card) :
    (scrapeCards cards).1 = cards.filterMap persistedOf := by
  induction cards with
  | nil => rfl
  | cons c rest ih =>
    simp only [scrapeCards, List.filterMap_cons]
    cases h : extractCard c <;> simp [persistedOf, h, ih]

/-- `products_found` counts exactly the cards that clear the guard. -/
lemma scrapeCards_found (cards : List Card) :
    (scrapeCards cards).2.1 =
      (cards.filter (fun x => isOk (extractCard x))).length := by
  induction cards with
  | nil => rfl
  | cons c rest ih =>
    simp only [scrapeCards, List.filter_cons]
    cases h : extractCard c <;> simp [isOk, h, ih]

/-- The error log counts exactly the cards whose body raised. -/
lemma scrapeCards_errors (cards : List Card) :
    (scrapeCards cards).2.2 =
      (cards.filter (fun x => isErr (extractCard x))).length := by
  induction cards with
  | nil => rfl
  | cons c rest ih =>
    simp only [scrapeCards, List.filter_cons]
    cases h : extractCard c <;> simp [isErr, h, ih]

/-- `products_found` equals the number of records persisted from the page. -/
lemma scrapeCards_length (cards : List Card) :
    (scrapeCards cards).1.length = (scrapeCards cards).2.1 := by
  induction cards with
  | nil => rfl
  | cons c rest ih =>
    simp only [scrapeCards]
    cases h : extractCard c <;> simp [h, ih]

/-- C1 counterexample: a card whose price text is `"-5"` parses to the
negative number −5 yet is persisted and counted, refuting "persisted only
if the price text parses as a non-negative number". -/
theorem negative_price_persisted :
    extractCard negPriceCard = CardResult.ok negPriceProduct ∧
    negPriceProduct.price < 0 ∧
    (scrapeCards [negPriceCard]).2.1 = 1 := by decide

/-- C1 (amended): a candidate card is persisted if and only if its name,
product URL and image URL are truthy and its price text is present, truthy
and parses as a number (of any sign); a candidate failing the conditions is
not persisted and not counted in the page's yield. -/
theorem persisted_iff_required (c : Card) (cards : List Card) :
    (isOk (extractCard c) = true ↔ requiredOk c = true) ∧
    (scrapeCards cards).1.length = (scrapeCards cards).2.1 ∧
    (isOk (extractCard c) = false →
      (scrapeCards (c :: cards)).1 = (scrapeCards cards).1 ∧
      (scrapeCards (c :: cards)).2.1 = (scrapeCards cards).2.1) := by
  refine ⟨extractCard_ok_iff c, scrapeCards_length cards, ?_⟩
  intro hfail
  cases h : extractCard c with
  | ok p => rw [h] at hfail; simp [isOk] at hfail
  | skipped => simp [scrapeCards, h]
  | errorLogged => simp [scrapeCards, h]

/-- Witness for `persisted_iff_required`: a card with no image element is
dropped, leaving the page's records and yield unchanged. -/
theorem persisted_iff_required_witness :
    (scrapeCards [missImgCard]).1 = (scrapeCards []).1 ∧
    (scrapeCards [missImgCard]).2.1 = (scrapeCards []).2.1 :=
  (persisted_iff_required missImgCard []).2.2 (by decide)

/-- C5 counterexample: on a five-card page whose third card lacks a price
element, the scraper persists four candidates but logs zero suppressed
failures (the claim asserts exactly one): the deficient card falls through
the guard silently, since only a raising card (e.g. an unparseable price
text) reaches the logging `except` clause. -/
theorem missing_price_logs_nothing :
    (scrapeCards fivePage).1.length = 4 ∧
    (scrapeCards fivePage).2.2 = 0 ∧
    ¬(scrapeCards fivePage).2.2 = 1 := by decide

/-- C5 (amended): the five-card page persists exactly four candidates and
the extraction does not abort the page (`scrapeCards` is total and its
outcome is the concatenation of independent per-card outcomes); the card
lacking a price is dropped silently — no failure is logged for it; a card
is logged as a failure exactly when its price text is present, truthy and
unparseable. -/
theorem missing_price_page_amended :
    (scrapeCards fivePage).1.length = 4 ∧
    (scrapeCards fivePage).2.1 = 4 ∧
    (scrapeCards fivePage).2.2 = 0 ∧
    extractCard c5NoPriceCard = CardResult.skipped ∧
    (∀ cards : List Card, (scrapeCards cards).1 = cards.filterMap persistedOf) ∧
    (∀ cards : List Card, (scrapeCards cards).2.2 =
      (cards.filter (fun x => isErr (extractCard x))).length) ∧
    (∀ c : Card, extractCard c = CardResult.errorLogged ↔
      ∃ pt, c.priceText = some pt ∧ truthy pt = true ∧
            pyFloat? (cleanPrice pt) = none) := by
  refine ⟨by decide, by decide, by decide, by decide,
          scrapeCards_persisted, scrapeCards_errors, ?_⟩
  intro c
  exact (extractCard_err_iff c).trans (priceStepOf_err_iff c.priceText)

/-! ## Crawl-controller lemmas -/

/-- Every page the section loop fetches comes from its page list. -/
lemma runSectionAux_mem (fetch : Nat → Option (List Card)) :
    ∀ (l : List Nat) (p : Nat), p ∈ (runSectionAux fetch l).1 → p ∈ l := by
  intro l
  induction l with
  | nil => intro p hp; simp [runSectionAux] at hp
  | cons a t ih =>
    intro p hp
    by_cases hz : (scrape_page (fetch a)).2.1 = 0
    · simp only [runSectionAux, if_pos hz] at hp
      simp at hp
      simp [hp]
    · simp only [runSectionAux, if_neg hz] at hp
      rcases List.mem_cons.mp hp with rfl | hp'
      · exact List.mem_cons_self _ _
      · exact List.mem_cons_of_mem _ (ih p hp')

/-- The fetched pages are an initial segment of the page list. -/
lemma runSectionAux_isPrefix (fetch : Nat → Option (List Card)) :
    ∀ l : List Nat, (runSectionAux fetch l).1 <+: l := by
  intro l
  induction l with
  | nil => simp [runSectionAux]
  | cons a t ih =>
    by_cases hz : (scrape_page (fetch a)).2.1 = 0
    · simp only [runSectionAux, if_pos hz]
      exact ⟨t, rfl⟩
    · simp only [runSectionAux, if_neg hz]
      obtain ⟨u, hu⟩ := ih
      exact ⟨u, by rw [List.cons_append, hu]⟩

/-- No page is fetched after a page whose yield was zero. -/
lemma runSectionAux_no_after_zero (fetch : Nat → Option (List Card)) :
    ∀ l : List Nat, l.Pairwise (· < ·) →
      ∀ p q : Nat, p ∈ (runSectionAux fetch l).1 →
        q ∈ (runSectionAux fetch l).1 → p < q →
        pageYield (fetch p) ≠ 0 := by
  intro l
  induction l with
  | nil => intro _ p q hp _ _; simp [runSectionAux] at hp
  | cons a t ih =>
    intro hpw p q hp hq hpq
    rw [List.pairwise_cons] at hpw
    by_cases hz : (scrape_page (fetch a)).2.1 = 0
    · simp only [runSectionAux, if_pos hz] at hp hq
      simp at hp hq
      omega
    · simp only [runSectionAux, if_neg hz] at hp hq
      rcases List.mem_cons.mp hp with rfl | hp'
      · exact hz
      · rcases List.mem_cons.mp hq with rfl | hq'
        · have hlt := hpw.1 p (runSectionAux_mem fetch t p hp')
          omega
        · exact ih hpw.2 p q hp' hq' hpq

/-- The first page fetched for a section is page 1. -/
lemma fetchedPages_head (fetch : Nat → Option (List Card)) :
    (fetchedPages fetch).head? = some 1 := by
  show ((runSectionAux fetch (1 :: List.range' 2 6)).1).head? = some 1
  by_cases hz : (scrape_page (fetch 1)).2.1 = 0
  · simp [runSectionAux, hz]
  · simp [runSectionAux, hz]

/-- C2: for every section, pages are fetched in strictly increasing order
starting at page 1; no page is fetched after a page that yielded zero
(transport failure yields zero), no page is fetched twice, and no page
number above 7 is ever fetched. -/
theorem crawl_pagination_claim (fetch : Nat → Option (List Card)) :
    (fetchedPages fetch).head? = some 1 ∧
    (fetchedPages fetch).Chain' (· < ·) ∧
    (fetchedPages fetch).Nodup ∧
    (∀ p ∈ fetchedPages fetch, 1 ≤ p ∧ p ≤ 7) ∧
    (∀ p q : Nat, p ∈ fetchedPages fetch → q ∈ fetchedPages fetch → p < q →
      pageYield (fetch p) ≠ 0) ∧
    pageYield none = 0 := by
  have hsub : List.Sublist (fetchedPages fetch) (List.range' 1 7) :=
    (runSectionAux_isPrefix fetch (List.range' 1 7)).sublist
  refine ⟨fetchedPages_head fetch, ?_, ?_, ?_, ?_, rfl⟩
  · exact ((by decide : (List.range' 1 7).Pairwise (· < ·)).sublist hsub).chain'
  · exact (by decide : (List.range' 1 7).Nodup).sublist hsub
  · intro p hp
    have hm : p ∈ List.range' 1 7 := hsub.subset hp
    simp only [show List.range' 1 7 = [1, 2, 3, 4, 5, 6, 7] from rfl] at hm
    simp at hm
    omega
  · exact runSectionAux_no_after_zero fetch (List.range' 1 7) (by decide)

/-- Witness for `crawl_pagination_claim`: with a transport oracle that fails
every fetch, page 1 is within bounds; with an oracle whose every page holds
one card, page 1 (fetched before page 2) had non-zero yield. -/
theorem crawl_pagination_claim_witness :
    (1 ≤ 1 ∧ 1 ≤ 7) ∧ pageYield (constPageFetch 1) ≠ 0 :=
  ⟨(crawl_pagination_claim (fun _ => none)).2.2.2.1 1 (by decide),
   (crawl_pagination_claim constPageFetch).2.2.2.2.1 1 2 (by decide)
     (by decide) (by decide)⟩

/-- `main` accumulates section totals left to right. -/
lemma main_total_shift (l : List (Nat → Option (List Card))) :
    ∀ a : Nat, l.foldl (fun acc fetch => acc + sectionTotal fetch) a =
      a + l.foldl (fun acc fetch => acc + sectionTotal fetch) 0 := by
  induction l with
  | nil => intro a; simp
  | cons f t ih =>
    intro a
    simp only [List.foldl_cons]
    rw [ih (a + sectionTotal f), ih (0 + sectionTotal f)]
    omega

/-- The total over a section list decomposes head-first. -/
lemma main_total_cons (f : Nat → Option (List Card))
    (rest : List (Nat → Option (List Card))) :
    main_total (f :: rest) = sectionTotal f + main_total rest := by
  unfold main_total
  simp only [List.foldl_cons]
  rw [main_total_shift rest (0 + sectionTotal f)]
  omega

/-- C6: for a section whose pages 1–3 hold 10 fully-formed cards each and
whose page 4 holds zero product cards, the controller issues exactly the
four fetches of pages 1–4, persists exactly 30 records, adds exactly 30 to
the aggregate total, and goes on to process the remaining configured
sections. -/
theorem section_end_to_end_claim :
    fetchedPages fetchC6 = [1, 2, 3, 4] ∧
    (sectionPersisted fetchC6).length = 30 ∧
    sectionTotal fetchC6 = 30 ∧
    ∀ rest : List (Nat → Option (List Card)),
      main_total (fetchC6 :: rest) = 30 + main_total rest := by
  refine ⟨by decide, by decide, by decide, ?_⟩
  intro rest
  rw [main_total_cons, show sectionTotal fetchC6 = 30 from by decide]

/-! ## Identity claims -/

/-- C4: the storage identity is a deterministic function of `productUrl`
alone — two records with the same `productUrl` are stored under the same
document id, whatever their other fields; and (witnessing collision-freedom
on concrete URLs) two distinct product URLs receive the distinct MD5
identities that `hashlib` computes for them. -/
theorem identity_deterministic_claim :
    (∀ p1 p2 : Product, p1.productUrl = p2.productUrl →
      savedKey p1 = savedKey p2) ∧
    doc_id "https://www.countryroad.co.nz/p/a"
      = "f2df5bd5d67c7377162954b0528383af" ∧
    doc_id "https://www.countryroad.co.nz/p/b"
      = "1eeb08671a174d92bfbda7995af7ca4f" ∧
    doc_id "https://www.countryroad.co.nz/p/a"
      ≠ doc_id "https://www.countryroad.co.nz/p/b" := by
  refine ⟨?_, by decide, by decide, by decide⟩
  intro p1 p2 h
  unfold savedKey
  rw [h]

/-- Witness for `identity_deterministic_claim`: two records differing in
name, price and image but sharing a `productUrl` get the same identity. -/
theorem identity_deterministic_claim_witness :
    savedKey c4ProdA = savedKey c4ProdB :=
  identity_deterministic_claim.1 c4ProdA c4ProdB rfl

/-! ## Persistence claims -/

/-- C7: upserting the same fully-formed record twice leaves exactly one
document under its identity; after either write that document holds exactly
the record's fields; only `scrapedAt` differs between the two writes, and
no other document is touched. -/
theorem upsert_idempotent_claim (st : Store) (p : Product) (t1 t2 : Nat) :
    save_product_to_firestore st p t1 (savedKey p)
      = some ⟨fullFields p, t1⟩ ∧
    save_product_to_firestore (save_product_to_firestore st p t1) p t2
      (savedKey p) = some ⟨fullFields p, t2⟩ ∧
    (∀ k : String, k ≠ savedKey p →
      save_product_to_firestore (save_product_to_firestore st p t1) p t2 k
        = st k) := by
  have hwrite : ∀ (s : Store) (t : Nat),
      save_product_to_firestore s p t (savedKey p)
        = some ⟨fullFields p, t⟩ := by
    intro s t
    unfold save_product_to_firestore mergeSet
    rw [if_pos rfl]
    rfl
  refine ⟨hwrite st t1, hwrite _ t2, ?_⟩
  intro k hk
  unfold save_product_to_firestore mergeSet
  rw [if_neg hk, if_neg hk]

/-- Witness for `upsert_idempotent_claim`: a double write of a concrete
record into the empty store leaves an unrelated key untouched. -/
theorem upsert_idempotent_claim_witness :
    save_product_to_firestore
      (save_product_to_firestore c7EmptyStore c7Prod 5) c7Prod 9 "deadbeef"
      = c7EmptyStore "deadbeef" :=
  (upsert_idempotent_claim c7EmptyStore c7Prod 5 9).2.2 "deadbeef" (by decide)

/-- C8: a merge-upsert over a stored document combines field-wise — every
field present in the write overwrites the stored value and every absent
field is left unchanged (stated for all eight fields); `scrapedAt` is set
to the write's server time, and no other document is affected. -/
theorem merge_upsert_claim (st : Store) (docId : String)
    (old new : DocFields) (t0 now : Nat)
    (h : st docId = some ⟨old, t0⟩) :
    mergeSet st docId new now docId = some ⟨mergeFields old new, now⟩ ∧
    (∀ k : String, k ≠ docId → mergeSet st docId new now k = st k) ∧
    ((∀ v, new.name = some v → (mergeFields old new).name = some v) ∧
      (new.name = none → (mergeFields old new).name = old.name)) ∧
    ((∀ v, new.brand = some v → (mergeFields old new).brand = some v) ∧
      (new.brand = none → (mergeFields old new).brand = old.brand)) ∧
    ((∀ v, new.price = some v → (mergeFields old new).price = some v) ∧
      (new.price = none → (mergeFields old new).price = old.price)) ∧
    ((∀ v, new.imageUrl = some v → (mergeFields old new).imageUrl = some v) ∧
      (new.imageUrl = none → (mergeFields old new).imageUrl = old.imageUrl)) ∧
    ((∀ v, new.productUrl = some v →
        (mergeFields old new).productUrl = some v) ∧
      (new.productUrl = none →
        (mergeFields old new).productUrl = old.productUrl)) ∧
    ((∀ v, new.category = some v → (mergeFields old new).category = some v) ∧
      (new.category = none → (mergeFields old new).category = old.category)) ∧
    ((∀ v, new.color = some v → (mergeFields old new).color = some v) ∧
      (new.color = none → (mergeFields old new).color = old.color)) ∧
    ((∀ v, new.retailer = some v → (mergeFields old new).retailer = some v) ∧
      (new.retailer = none → (mergeFields old new).retailer = old.retailer)) := by
  refine ⟨?_, ?_, ?_, ?_, ?_, ?_, ?_, ?_, ?_, ?_⟩
  · unfold mergeSet
    rw [if_pos rfl, h]
  · intro k hk
    unfold mergeSet
    rw [if_neg hk]
  all_goals
    exact ⟨fun v hv => by simp [mergeFields, hv, pick],
           fun hv => by simp [mergeFields, hv, pick]⟩

/-- Witness for `merge_upsert_claim`: writing fields with `color` populated
over a stored document whose `color` is empty leaves the populated color
stored; the `brand` omitted from the write survives from the first write. -/
theorem merge_upsert_claim_witness :
    mergeSet c8Store "doc1" c8New 9 "doc1"
      = some ⟨mergeFields c8Old c8New, 9⟩ ∧
    (mergeFields c8Old c8New).color = some "red" ∧
    (mergeFields c8Old c8New).brand = c8Old.brand ∧
    mergeSet c8Store "doc1" c8New 9 "other" = c8Store "other" :=
  ⟨(merge_upsert_claim c8Store "doc1" c8Old c8New 3 9 (by decide)).1,
   (merge_upsert_claim c8Store "doc1" c8Old c8New 3 9
      (by decide)).2.2.2.2.2.2.2.2.1.1 "red" (by decide),
   (merge_upsert_claim c8Store "doc1" c8Old c8New 3 9
      (by decide)).2.2.2.1.2 (by decide),
   (merge_upsert_claim c8Store "doc1" c8Old c8New 3 9
      (by decide)).2.1 "other" (by decide)⟩

/-! ## URL rewriting claims -/

lemma toList_append (s t : String) : (s ++ t).toList = s.toList ++ t.toList :=
  rfl

/-- Whatever follows the base origin, the rewritten URL starts with
`"http"`. -/
lemma pyStartsWith_base (v : String) :
    pyStartsWith (BASE_URL ++ v) "http" = true := rfl

/-- A truthy rewritten URL starts with `"http"`. -/
lemma absolutize_http (v : String)
    (h : otruthy (absolutize (some v)) = true) :
    pyStartsWith ((absolutize (some v)).getD "") "http" = true := by
  simp only [absolutize] at h ⊢
  by_cases h1 : (truthy v && !pyStartsWith v "http") = true
  · rw [if_pos h1]
    exact pyStartsWith_base v
  · rw [if_neg h1] at h ⊢
    simp only [otruthy, Option.getD_some] at h ⊢
    cases hsw : pyStartsWith v "http" with
    | true => rfl
    | false => exact absurd (by rw [h, hsw]; rfl) h1

/-- C9 counterexample: the code tests `startswith('http')`, not "starts
with a scheme".  A URL with the scheme `ftp:` is nevertheless rewritten
(prefixed), and a scheme-less relative path beginning with the four letters
`http` is left unchanged — both against the claim. -/
theorem url_scheme_counterexample :
    hasScheme "ftp://cdn.countryroad.co.nz/a.jpg" = true ∧
    absolutize (some "ftp://cdn.countryroad.co.nz/a.jpg") =
      some "https://www.countryroad.co.nzftp://cdn.countryroad.co.nz/a.jpg" ∧
    "https://www.countryroad.co.nzftp://cdn.countryroad.co.nz/a.jpg"
      ≠ "ftp://cdn.countryroad.co.nz/a.jpg" ∧
    hasScheme "httpics/img.jpg" = false ∧
    absolutize (some "httpics/img.jpg") = some "httpics/img.jpg" := by
  decide

/-- C9 (amended): a non-empty URL is prefixed with the base origin exactly
when it does not start with the literal `"http"` (not: "a scheme"), and is
left unchanged otherwise; consequently both URLs of every persisted record
start with `"http"`. -/
theorem url_rewrite_claim (u : String) (c : Card) (p : Product) :
    (truthy u = true → pyStartsWith u "http" = false →
      absolutize (some u) = some (BASE_URL ++ u)) ∧
    (pyStartsWith u "http" = true → absolutize (some u) = some u) ∧
    (truthy u = false → absolutize (some u) = some u) ∧
    (extractCard c = CardResult.ok p →
      pyStartsWith p.productUrl "http" = true ∧
      pyStartsWith p.imageUrl "http" = true) := by
  refine ⟨?_, ?_, ?_, ?_⟩
  · intro ht hs
    simp [absolutize, ht, hs]
  · intro hs
    simp [absolutize, hs]
  · intro ht
    simp [absolutize, ht]
  · intro h
    obtain ⟨-, hurl, himg, -, -, hpu, hiu, -, -, -⟩ :=
      extractCard_ok_inv c p h
    constructor
    · rw [hpu]
      cases hhr : c.href with
      | none => rw [hhr] at hurl; simp [absolutize, otruthy] at hurl
      | some v => rw [hhr] at hurl; exact absolutize_http v hurl
    · rw [hiu]
      cases him : c.imgSrc with
      | none => rw [him] at himg; simp [absolutize, otruthy] at himg
      | some v => rw [him] at himg; exact absolutize_http v himg

/-- Witness for `url_rewrite_claim`: a relative path is prefixed, an
absolute URL is kept, and a concrete persisted record's URLs start with
`"http"`. -/
theorem url_rewrite_claim_witness :
    absolutize (some "/p/w") = some (BASE_URL ++ "/p/w") ∧
    absolutize (some "https://x.example/y") = some "https://x.example/y" ∧
    pyStartsWith c9Prod.productUrl "http" = true ∧
    pyStartsWith c9Prod.imageUrl "http" = true :=
  ⟨(url_rewrite_claim "/p/w" c9Card c9Prod).1 (by decide) (by decide),
   (url_rewrite_claim "https://x.example/y" c9Card c9Prod).2.1 (by decide),
   ((url_rewrite_claim "" c9Card c9Prod).2.2.2 (by decide)).1,
   ((url_rewrite_claim "" c9Card c9Prod).2.2.2 (by decide)).2⟩

/-! ## Persisted-record invariants -/

/-- C10: every record this program persists carries the constants
`brand = "Country Road"`, `retailer = {id: countryroad, name: Country
Road}`, and the empty `color` (so a write with `color` populated can never
originate here), and its `category` is one of the five table labels. -/
theorem persisted_invariants_claim (c : Card) (p : Product)
    (h : extractCard c = CardResult.ok p) :
    p.brand = "Country Road" ∧
    p.retailer = ⟨"countryroad", "Country Road"⟩ ∧
    p.color = "" ∧
    p.category ∈ ["tops", "bottoms", "shoes", "outerwear", "accessories"] := by
  obtain ⟨-, -, -, -, hb, -, -, hcat, hcol, hret⟩ := extractCard_ok_inv c p h
  exact ⟨hb, hret, hcol, by rw [hcat]; exact map_category_mem _⟩

/-- Witness for `persisted_invariants_claim` at a concrete card. -/
theorem persisted_invariants_claim_witness :
    c10Prod.brand = "Country Road" ∧
    c10Prod.retailer = ⟨"countryroad", "Country Road"⟩ ∧
    c10Prod.color = "" ∧
    c10Prod.category ∈ ["tops", "bottoms", "shoes", "outerwear",
      "accessories"] :=
  persisted_invariants_claim c10Card c10Prod (by decide)

end CountryRoadScraper
